import Mathlib

/-!
Shallow embedding of the sprint fetch/cache/resolve pipeline of the `augur`
repository (files `augur/integrations/uajira/data/sprint.py`,
`augur/fetchers/fetcher.py`, `augur/common/__init__.py`), together with
theorems settling the specification claims about it.

Modelling conventions:
* JIRA sprint records (Python dicts) become structures carrying exactly the
  fields the embedded code reads.
* `datetime` values and `timedelta` durations are modelled as integers
  (seconds); `timedelta(days=n)` becomes `n * seconds_per_day`.
* The aggregation code casts its values with `float(...)`, so its numbers
  are modelled as rationals (exact arithmetic, float semantics idealised);
  `standard_deviation` performs no such cast, so its numbers are modelled as
  Python 2 int-or-float values, where `/` on two ints floor-divides.
* A raised exception is modelled with `Except`; a Python function that can
  return `None` returns an `Option`.
-/

namespace Augur

/-- Lifecycle state of a sprint as reported by the external tracker
(the Python code compares against the strings FUTURE / ACTIVE / CLOSED). -/
inductive SprintState
  | FUTURE
  | ACTIVE
  | CLOSED
deriving DecidableEq, Repr

/-- Abridged sprint record as returned by the board listing call.  The field
`overdue` models presence of the `overdue` key in the Python dict (the code
only ever tests `'overdue' in s`). -/
structure AbridgedSprint where
  id : Nat
  name : String
  state : SprintState
  sequence : Int
  overdue : Bool
deriving DecidableEq, Repr

/-- Comparison used to sort a team's sprints: `sorted(sprints, key=get_key,
reverse=True)` with `get_key(item) = item['sequence']`, i.e. a stable sort
by `sequence` descending. -/
def sprint_sequence_ge (a b : AbridgedSprint) : Bool :=
  b.sequence ≤ a.sequence

/-- Stable descending sort by `sequence`, as performed at the top of
`get_abridged_sprint_object_for_team`. -/
def sort_sprints_desc (sprints : List AbridgedSprint) : List AbridgedSprint :=
  sprints.mergeSort sprint_sequence_ge

/-- The `sprint_id` argument of `get_abridged_sprint_object_for_team`: one of
the `SPRINT_XXX` constants, a sprint dict (`isinstance(sprint_id, dict)`), or
a concrete id (the `else` branch). -/
inductive SprintRef
  | lastCompleted
  | beforeLastCompleted
  | current
  | sprintObject (s : AbridgedSprint)
  | byId (i : Nat)
deriving DecidableEq, Repr

/-- Loop of the `SPRINT_LAST_COMPLETED` branch.  The accumulator `sprint`
models the local variable of the same name: an overdue `ACTIVE` sprint is
stored without `break`; a `CLOSED` sprint is stored and the loop breaks. -/
def last_completed_scan : List AbridgedSprint → Option AbridgedSprint → Option AbridgedSprint
  | [], sprint => sprint
  | s :: rest, sprint =>
    match s.state with
    | .FUTURE => last_completed_scan rest sprint
    | .ACTIVE =>
      if s.overdue then last_completed_scan rest (some s)
      else last_completed_scan rest sprint
    | .CLOSED => some s

/-- Loop of the `SPRINT_BEFORE_LAST_COMPLETED` branch.  The accumulator
models the `sprint_last` local; the function returns `sprint_before_last`. -/
def before_last_completed_scan : List AbridgedSprint → Option AbridgedSprint → Option AbridgedSprint
  | [], _ => none
  | s :: rest, sprint_last =>
    if s.state = .CLOSED then
      match sprint_last with
      | none => before_last_completed_scan rest (some s)
      | some _ => some s
    else before_last_completed_scan rest sprint_last

/-- Loop of the `SPRINT_CURRENT` branch: first `ACTIVE` sprint wins. -/
def current_scan : List AbridgedSprint → Option AbridgedSprint
  | [] => none
  | s :: rest => if s.state = .ACTIVE then some s else current_scan rest

/-- Loop of the concrete-id branch: first exact id match wins. -/
def by_id_scan (sprint_id : Nat) : List AbridgedSprint → Option AbridgedSprint
  | [] => none
  | s :: rest => if s.id = sprint_id then some s else by_id_scan sprint_id rest

/-- Embedding of `get_abridged_sprint_object_for_team` (the sprint resolver):
sort the team's sprint list by `sequence` descending, then branch on the kind
of reference.  A sprint object passed directly is returned unchanged. -/
def get_abridged_sprint_object_for_team
    (sprints_for_team : List AbridgedSprint) (sprint_id : SprintRef) :
    Option AbridgedSprint :=
  let sprints := sort_sprints_desc sprints_for_team
  match sprint_id with
  | .lastCompleted => last_completed_scan sprints none
  | .beforeLastCompleted => before_last_completed_scan sprints none
  | .current => current_scan sprints
  | .sprintObject s => some s
  | .byId i => by_id_scan i sprints

/-- Number of seconds in one day; `datetime.timedelta(days=n)` is modelled as
`n * seconds_per_day`. -/
def seconds_per_day : Int := 86400

/-- The parts of a cached detailed sprint record that `should_use_cache`
reads: `sprint['state']` and `sprint['completeDate']`. -/
structure CachedSprintRecord where
  state : SprintState
  completeDate : Int
deriving DecidableEq, Repr

/-- Embedding of `UaJiraSprintDataFetcher.should_use_cache`.  A dict-shaped
record (`isinstance(sprint, dict)`) is usable exactly when it is `CLOSED` and
its `completeDate` is more than 6 days in the past; any non-dict input —
including Python `None`, modelled here as `Option.none` — falls into the
`else` branch, which returns `True`. -/
def should_use_cache (sprint : Option CachedSprintRecord) (now : Int) : Bool :=
  match sprint with
  | some s =>
    decide (s.state = .CLOSED) && decide (s.completeDate < now - 6 * seconds_per_day)
  | none => true

/-- The `sprint_id` value that may be passed to `validate_input`: one of the
`SPRINT_XXX` constants, a concrete id, or a sprint object. -/
inductive SprintIdArg
  | lastCompleted
  | current
  | beforeLastCompleted
  | byId (i : Nat)
  | sprintObject (s : AbridgedSprint)
deriving DecidableEq, Repr

/-- Keyword arguments of `fetch` / `validate_input`; `none` models the key
being absent from `**args`. -/
structure FetchArgs where
  team_id : Option String
  sprint_id : Option SprintIdArg
  get_history : Option Bool
deriving DecidableEq, Repr

/-- Python truthiness of the `team_id` value (`not self.team_id` is true for
both `None` and the empty string). -/
def team_truthy (t : Option String) : Bool :=
  match t with
  | none => false
  | some s => !s.isEmpty

/-- Embedding of `UaJiraSprintDataFetcher.validate_input`: applies the
defaults (`sprint_id` defaults to `SPRINT_LAST_COMPLETED`, `get_history` to
`False`) and raises `LookupError` — modelled as `Except.error` — on each of
the three malformed combinations, in source order. -/
def validate_input (args : FetchArgs) :
    Except String (Option String × SprintIdArg × Bool) :=
  let team_id := args.team_id
  let sprint_id := args.sprint_id.getD .lastCompleted
  let get_history := args.get_history.getD false
  if !team_truthy team_id
      && !(sprint_id == .lastCompleted || sprint_id == .current) then
    .error "You cannot request a specific sprint ID if you do not specify a team ID."
  else if get_history && args.sprint_id.isSome then
    .error "You specified that you want sprint history but also specified a specific sprint to retrieve."
  else if get_history && !team_truthy team_id then
    .error "You specified that you want sprint history but did not specify a team to retrieve the history for."
  else
    .ok (team_id, sprint_id, get_history)

/-- Embedding of `UaDataFetcher.allow_caching`: caching is disabled exactly
when a forced refresh was requested. -/
def allow_caching (force_update : Bool) : Bool :=
  if force_update then false else true

/-- Embedding of the `UaDataFetcher.fetch` lifecycle: validate first
(propagating the validation error), then invoke the retrieval step
(`_fetch`, whose eventual `recent_data` is the parameter `fetch_impl`) when
caching is disabled or the cached read is falsy, otherwise return the
previously held `recent_data`. -/
def fetch {α : Type} (force_update : Bool) (recent_data : Option α)
    (get_cached_data : Option α) (fetch_impl : Option α) (args : FetchArgs) :
    Except String (Option α) :=
  match validate_input args with
  | .error e => .error e
  | .ok _ =>
    if !allow_caching force_update || get_cached_data.isNone then
      .ok fetch_impl
    else
      .ok recent_data

/-- Embedding of the `ACTIVE` / non-`ACTIVE` branch of
`get_detailed_sprint_info_for_team` that computes `actual_length` and
`overdue` (the pair returned is `(actual_length, overdue)`). -/
def detailed_sprint_actual_length_overdue
    (state : SprintState) (startDate completeDate now : Int) : Int × Bool :=
  if state = .ACTIVE then
    let actual_length := now - startDate
    (actual_length, decide (16 * seconds_per_day < actual_length))
  else
    (completeDate - startDate, false)

/-- A Python 2 numeric value: an `int` or a `float` (float values idealised
as exact rationals).  `augur/common/__init__.py` has no
`from __future__ import division`, so the arithmetic below follows Python 2:
an operation on two ints yields an int, and `/` on two ints floor-divides. -/
inductive PyNum
  | int (n : ℤ)
  | float (x : ℚ)
deriving DecidableEq, Repr

/-- Python 2 addition: two ints give an int; a float operand promotes the
result to float. -/
def py_add : PyNum → PyNum → PyNum
  | .int a, .int b => .int (a + b)
  | .int a, .float b => .float (a + b)
  | .float a, .int b => .float (a + b)
  | .float a, .float b => .float (a + b)

/-- Python 2 subtraction, with the same promotion rule as `py_add`. -/
def py_sub : PyNum → PyNum → PyNum
  | .int a, .int b => .int (a - b)
  | .int a, .float b => .float (a - b)
  | .float a, .int b => .float (a - b)
  | .float a, .float b => .float (a - b)

/-- Python 2 `d ** 2`. -/
def py_pow2 : PyNum → PyNum
  | .int a => .int (a ^ 2)
  | .float a => .float (a ^ 2)

/-- Python 2 `/`: two ints floor-divide (rounding toward minus infinity,
`Int.fdiv`); a float operand gives true division.  A zero divisor raises
`ZeroDivisionError` in Python; inside `standard_deviation` the divisor is
never zero, so the embedding's junk value there is unreachable. -/
def py_div : PyNum → PyNum → PyNum
  | .int a, .int b => .int (a.fdiv b)
  | .int a, .float b => .float (a / b)
  | .float a, .int b => .float (a / b)
  | .float a, .float b => .float (a / b)

/-- Python `sum`: a left fold with `+`, starting from the int `0`. -/
def pysum (lst : List PyNum) : PyNum :=
  lst.foldl py_add (.int 0)

/-- The rational value of a Python 2 number. -/
def PyNum.toRat : PyNum → ℚ
  | .int n => n
  | .float x => x

/-- The variance computed inside `standard_deviation` for a non-empty list:
mean, per-element differences, squared differences, their sum, then division
by `n` (population) or `n - 1` (sample, only when `n > 1`).  All divisions
are Python 2 `/`: they floor-divide whenever the list is all-integer. -/
def variance_of (lst : List PyNum) (population : Bool) : PyNum :=
  let num_items : ℤ := lst.length
  let mean := py_div (pysum lst) (.int num_items)
  let differences := lst.map (fun x => py_sub x mean)
  let sq_differences := differences.map (fun d => py_pow2 d)
  let ssd := pysum sq_differences
  if population = true then py_div ssd (.int num_items)
  else if 1 < lst.length then py_div ssd (.int (num_items - 1))
  else .int 0

/-- Embedding of `augur.common.standard_deviation`.  The empty list returns
`0` before any division; otherwise the square root of `variance_of` is
returned.  The Python body is wrapped in a `try/except` that swallows every
exception, and for numeric input the body raises none, so the embedding is a
total function. -/
noncomputable def standard_deviation (lst : List PyNum) (population : Bool) : ℝ :=
  if lst.length = 0 then 0
  else Real.sqrt ((variance_of lst population).toRat : ℝ)

/-- `standard_deviation` as called with the Python default `population=True`
(no explicit sample/population choice supplied). -/
noncomputable def standard_deviation_default (lst : List PyNum) : ℝ :=
  standard_deviation lst true

/-- Population standard deviation as the specification words it: the square
root of the mean of the squared deviations from the mean. -/
noncomputable def population_standard_deviation_spec (lst : List ℚ) : ℝ :=
  Real.sqrt ((((lst.map (fun x => (x - lst.sum / lst.length) ^ 2)).sum / lst.length : ℚ) : ℝ))

/-- The three point-value metric keys aggregated by
`_aggregate_sprint_history_data` (the `point_keys` list). -/
inductive PointKey
  | completedIssuesEstimateSum
  | issuesNotCompletedEstimateSum
  | puntedIssuesEstimateSum
deriving DecidableEq, Repr

/-- The four issue-count metric keys aggregated by
`_aggregate_sprint_history_data` (the `issue_keys` list). -/
inductive IssueKey
  | completedIssues
  | issuesNotCompletedInCurrentSprint
  | puntedIssues
  | issueKeysAddedDuringSprint
deriving DecidableEq, Repr

/-- The `text` field of a point-value entry in `contents`: either the literal
string `null` or a numeric string (its value). -/
inductive RawText
  | null
  | num (v : ℚ)
deriving DecidableEq, Repr

/-- The part of `one_sprint['sprint']` the aggregator reads (its `id`). -/
structure SprintInfo where
  id : Nat
deriving DecidableEq, Repr

/-- The part of `one_sprint['contents']` the aggregator reads: per point key
a `{'text': ...}` value and per issue key a container whose `len` is taken. -/
structure SprintContents where
  points : PointKey → RawText
  issues : IssueKey → List String

/-- One element of the `sprint_data` list handed to
`_aggregate_sprint_history_data`. -/
structure SprintHistoryEntry where
  sprint : SprintInfo
  contents : SprintContents

/-- The `{'actual': ..., 'running_avg': ..., 'running_sum': ...}` dict stored
for one metric of one sprint. -/
structure MetricAgg where
  actual : ℚ
  running_avg : ℚ
  running_sum : ℚ
deriving DecidableEq, Repr

/-- The per-sprint entry of the aggregate dict: the `info` value plus the
metric sub-dicts, keyed by metric name (absent keys are `none`). -/
structure SprintAgg where
  info : SprintInfo
  pointAgg : PointKey → Option MetricAgg
  issueAgg : IssueKey → Option MetricAgg

/-- The id-keyed portion of `aggregate_sprint_data` (ids absent from the dict
map to `none`). -/
abbrev AggDict := Nat → Option SprintAgg

/-- The `point_keys` list of the aggregator, in source order. -/
def point_keys : List PointKey :=
  [.completedIssuesEstimateSum, .issuesNotCompletedEstimateSum, .puntedIssuesEstimateSum]

/-- The `issue_keys` list of the aggregator, in source order. -/
def issue_keys : List IssueKey :=
  [.completedIssues, .issuesNotCompletedInCurrentSprint, .puntedIssues,
    .issueKeysAddedDuringSprint]

/-- Conversion of a raw `text` value to a number:
`float(orig_current if orig_current != 'null' else 0)`. -/
def text_to_number : RawText → ℚ
  | .null => 0
  | .num v => v

/-- Store an entry in the id-keyed dict. -/
def upd_entry (d : AggDict) (i : Nat) (e : SprintAgg) : AggDict :=
  fun j => if j = i then some e else d j

/-- Read `aggregate_sprint_data[i][k]` for a point key. -/
def read_point (d : AggDict) (i : Nat) (k : PointKey) : Option MetricAgg :=
  match d i with
  | some e => e.pointAgg k
  | none => none

/-- Read `aggregate_sprint_data[i][k]` for an issue key. -/
def read_issue (d : AggDict) (i : Nat) (k : IssueKey) : Option MetricAgg :=
  match d i with
  | some e => e.issueAgg k
  | none => none

/-- Read `aggregate_sprint_data[last_sprint_id][key]['running_sum']` for a
point key.  A missing entry would raise `KeyError` in Python; it is modelled
as `0` and is unreachable in the executions the claims quantify over. -/
def read_point_running_sum (d : AggDict) (i : Nat) (k : PointKey) : ℚ :=
  match read_point d i k with
  | some m => m.running_sum
  | none => 0

/-- Read `aggregate_sprint_data[last_sprint_id][key]['running_sum']` for an
issue key (same `KeyError` modelling as `read_point_running_sum`). -/
def read_issue_running_sum (d : AggDict) (i : Nat) (k : IssueKey) : ℚ :=
  match read_issue d i k with
  | some m => m.running_sum
  | none => 0

/-- Assign `entry[key]` for a point key. -/
def set_point (e : SprintAgg) (k : PointKey) (m : MetricAgg) : SprintAgg :=
  { e with pointAgg := fun j => if j = k then some m else e.pointAgg j }

/-- Assign `entry[key]` for an issue key. -/
def set_issue (e : SprintAgg) (k : IssueKey) (m : MetricAgg) : SprintAgg :=
  { e with issueAgg := fun j => if j = k then some m else e.issueAgg j }

/-- The `for key in point_keys` loop of `_aggregate_sprint_history_data`:
convert the raw text to a number, compute running sum and running average
(at index 0 both are the current value; later the previous sprint's stored
running sum is read and the average divides by `idx + 1`), and store the
metric dict under the current sprint's id.  A missing current entry would be
a Python `KeyError`; it is modelled as skipping the store and is unreachable
because the caller creates the entry first. -/
def point_key_loop (keys : List PointKey) (d : AggDict)
    (last_sprint_id id idx : Nat) (one : SprintHistoryEntry) : AggDict :=
  match keys with
  | [] => d
  | key :: rest =>
    let orig_current := one.contents.points key
    let current : ℚ := text_to_number orig_current
    let running_sum : ℚ :=
      if idx = 0 then current
      else read_point_running_sum d last_sprint_id key + current
    let average : ℚ :=
      if idx = 0 then current
      else running_sum / ((idx : ℚ) + 1)
    let d2 : AggDict :=
      match d id with
      | some e =>
        upd_entry d id (set_point e key
          { actual := current, running_avg := average, running_sum := running_sum })
      | none => d
    point_key_loop rest d2 last_sprint_id id idx one

/-- The `for key in issue_keys` loop of `_aggregate_sprint_history_data`:
identical bookkeeping, with the current value being the length of the
issue container. -/
def issue_key_loop (keys : List IssueKey) (d : AggDict)
    (last_sprint_id id idx : Nat) (one : SprintHistoryEntry) : AggDict :=
  match keys with
  | [] => d
  | key :: rest =>
    let current : ℚ := ((one.contents.issues key).length : ℚ)
    let running_sum : ℚ :=
      if idx = 0 then current
      else read_issue_running_sum d last_sprint_id key + current
    let average : ℚ :=
      if idx = 0 then current
      else running_sum / ((idx : ℚ) + 1)
    let d2 : AggDict :=
      match d id with
      | some e =>
        upd_entry d id (set_issue e key
          { actual := current, running_avg := average, running_sum := running_sum })
      | none => d
    issue_key_loop rest d2 last_sprint_id id idx one

/-- The full `aggregate_sprint_data` value: the `asc_order` list plus the
id-keyed entries. -/
structure AggregateSprintData where
  asc_order : List Nat
  entries : AggDict

/-- The `if id not in aggregate_sprint_data` block: create the entry holding
`info` when the current sprint's id is not yet a key; keep the dict unchanged
otherwise. -/
def ensure_entry (d : AggDict) (one : SprintHistoryEntry) : AggDict :=
  if (d one.sprint.id).isSome then d
  else
    upd_entry d one.sprint.id
      { info := one.sprint, pointAgg := fun _ => none, issueAgg := fun _ => none }

/-- The `for idx, one_sprint in enumerate(asc_sprint_data)` loop.  The second
argument is `idx`, the third is the `id` variable from the previous iteration
(initially `0`), which becomes `last_sprint_id`.  Each iteration appends the
current id to `asc_order`, creates the entry (with `info`) if the id is not
yet a key, then runs the point-key and issue-key loops. -/
def aggregate_go : List SprintHistoryEntry → Nat → Nat → AggregateSprintData → AggregateSprintData
  | [], _, _, acc => acc
  | one :: rest, idx, id_var, acc =>
    let last_sprint_id := id_var
    let id := one.sprint.id
    let asc := acc.asc_order ++ [id]
    let d0 : AggDict := ensure_entry acc.entries one
    let d1 := point_key_loop point_keys d0 last_sprint_id id idx one
    let d2 := issue_key_loop issue_keys d1 last_sprint_id id idx one
    aggregate_go rest (idx + 1) id { asc_order := asc, entries := d2 }

/-- Embedding of `_aggregate_sprint_history_data`: reverse the
descending-order input to ascending order, then run the enumeration loop
starting from an empty dict, `idx = 0` and `id = 0`. -/
def aggregate_sprint_history_data (sprint_data : List SprintHistoryEntry) : AggregateSprintData :=
  let asc_sprint_data := sprint_data.reverse
  aggregate_go asc_sprint_data 0 0 { asc_order := [], entries := fun _ => none }

/-- The raw value of point metric `k` at ascending position `i` (missing
positions give `0`), as the specification words `actual(i)`. -/
def actual_at (asc : List SprintHistoryEntry) (k : PointKey) (i : Nat) : ℚ :=
  match asc[i]? with
  | some e => text_to_number (e.contents.points k)
  | none => 0

/-- The specification's running-sum recurrence over the ascending list:
`running_sum(0) = actual(0)` and
`running_sum(i+1) = running_sum(i) + actual(i+1)`. -/
def running_sum_spec (asc : List SprintHistoryEntry) (k : PointKey) : Nat → ℚ
  | 0 => actual_at asc k 0
  | i + 1 => running_sum_spec asc k i + actual_at asc k (i + 1)

/-- Predicate form of the `s['state'] == 'CLOSED'` test of the resolver. -/
def is_closed (s : AbridgedSprint) : Bool :=
  s.state == .CLOSED

/-- Predicate form of the `s['state'] == 'ACTIVE'` test of the resolver. -/
def is_active (s : AbridgedSprint) : Bool :=
  s.state == .ACTIVE

/-- Predicate for an `ACTIVE` sprint carrying the `overdue` flag. -/
def is_overdue_active (s : AbridgedSprint) : Bool :=
  (s.state == .ACTIVE) && s.overdue

/-- Example sprint: `ACTIVE`, flagged overdue, sequence 2 (newer). -/
def c2_active : AbridgedSprint :=
  ⟨1, "overdue active", .ACTIVE, 2, true⟩

/-- Example sprint: `CLOSED`, sequence 1 (older). -/
def c2_closed : AbridgedSprint :=
  ⟨2, "older closed", .CLOSED, 1, false⟩

/-- Example sprint: `FUTURE`, sequence 7. -/
def c5_future : AbridgedSprint :=
  ⟨20, "future seven", .FUTURE, 7, false⟩

/-- Example sprint: `CLOSED`, sequence 5. -/
def c5_seq5 : AbridgedSprint :=
  ⟨21, "closed five", .CLOSED, 5, false⟩

/-- Example sprint: `CLOSED`, sequence 3. -/
def c5_seq3 : AbridgedSprint :=
  ⟨22, "closed three", .CLOSED, 3, false⟩

/-- Example team sprint list: a `FUTURE`, exactly one `ACTIVE`, a `CLOSED`. -/
def c6_list : List AbridgedSprint :=
  [⟨40, "future", .FUTURE, 3, false⟩, ⟨41, "active", .ACTIVE, 2, false⟩,
    ⟨42, "closed", .CLOSED, 1, false⟩]

/-- Example sprint record passed literally to the resolver. -/
def c7_sprint : AbridgedSprint :=
  ⟨30, "literal record", .ACTIVE, 1, false⟩

/-- Example history entry with the given sprint id and point value for every
point metric (issue containers empty). -/
def c1_entry (i : Nat) (v : ℚ) : SprintHistoryEntry :=
  ⟨⟨i⟩, { points := fun _ => .num v, issues := fun _ => [] }⟩

/-- Example aggregation input in descending chronological order; ascending
order has `completedIssuesEstimateSum` values 10, 20, 30. -/
def c1_example : List SprintHistoryEntry :=
  [c1_entry 3 30, c1_entry 2 20, c1_entry 1 10]

/-! Helper lemmas about the resolver's sort and scans. -/

theorem sort_sprints_desc_of_sorted {l : List AbridgedSprint}
    (h : l.Pairwise fun a b => sprint_sequence_ge a b = true) :
    sort_sprints_desc l = l :=
  List.mergeSort_of_sorted h

theorem sort_sprints_desc_perm (l : List AbridgedSprint) :
    (sort_sprints_desc l).Perm l :=
  List.mergeSort_perm l sprint_sequence_ge

theorem current_scan_eq_find? :
    ∀ l : List AbridgedSprint, current_scan l = l.find? is_active
  | [] => rfl
  | s :: l => by
    by_cases h : s.state = SprintState.ACTIVE
    · rw [current_scan, if_pos h, List.find?_cons_of_pos]
      simp [is_active, h]
    · rw [current_scan, if_neg h, List.find?_cons_of_neg, current_scan_eq_find? l]
      simp [is_active, h]

theorem before_last_scan_some (x : AbridgedSprint) :
    ∀ l : List AbridgedSprint,
      before_last_completed_scan l (some x) = l.find? is_closed
  | [] => rfl
  | s :: l => by
    by_cases h : s.state = SprintState.CLOSED
    · rw [before_last_completed_scan, if_pos h, List.find?_cons_of_pos]
      simp [is_closed, h]
    · rw [before_last_completed_scan, if_neg h, before_last_scan_some x l,
        List.find?_cons_of_neg]
      simp [is_closed, h]

theorem before_last_scan_none :
    ∀ l : List AbridgedSprint,
      before_last_completed_scan l none = (l.filter is_closed)[1]?
  | [] => rfl
  | s :: l => by
    by_cases h : s.state = SprintState.CLOSED
    · rw [before_last_completed_scan, if_pos h, before_last_scan_some s l,
        List.filter_cons_of_pos (by simp [is_closed, h]), List.getElem?_cons_succ,
        ← List.filter_head? is_closed l, List.head?_eq_getElem?]
    · rw [before_last_completed_scan, if_neg h, before_last_scan_none l,
        List.filter_cons_of_neg (by simp [is_closed, h])]

theorem last_completed_scan_eq (acc : Option AbridgedSprint) :
    ∀ l : List AbridgedSprint,
      last_completed_scan l acc =
        match l.find? is_closed with
        | some c => some c
        | none =>
          match (l.filter is_overdue_active).getLast? with
          | some a => some a
          | none => acc
  | [] => rfl
  | s :: l => by
    obtain ⟨i, n, st, sq, ov⟩ := s
    cases st with
    | FUTURE =>
      simp only [last_completed_scan]
      rw [List.find?_cons_of_neg _ (by simp [is_closed]),
        List.filter_cons_of_neg (by simp [is_overdue_active])]
      exact last_completed_scan_eq acc l
    | ACTIVE =>
      cases ov with
      | false =>
        simp only [last_completed_scan, Bool.false_eq_true, if_false]
        rw [List.find?_cons_of_neg _ (by simp [is_closed]),
          List.filter_cons_of_neg (by simp [is_overdue_active])]
        exact last_completed_scan_eq acc l
      | true =>
        simp only [last_completed_scan, if_true]
        rw [List.find?_cons_of_neg _ (by simp [is_closed]),
          List.filter_cons_of_pos (by simp [is_overdue_active]),
          last_completed_scan_eq (some ⟨i, n, .ACTIVE, sq, true⟩) l]
        cases hfind : l.find? is_closed with
        | some c => rfl
        | none =>
          cases hlast : (l.filter is_overdue_active).getLast? with
          | some a => simp [List.getLast?_cons, hlast]
          | none =>
            have hnil : l.filter is_overdue_active = [] :=
              List.getLast?_eq_none_iff.mp hlast
            simp [hnil]
    | CLOSED =>
      simp only [last_completed_scan]
      rw [List.find?_cons_of_pos _ (by simp [is_closed])]

/-! Theorems settling the claims. -/

/-- C3: the cache policy evaluator `should_use_cache`, given no cached record
(Python `None`), does NOT report the cache as unusable: the non-dict `else`
branch returns `True`, meaning a cached copy may be used.  This theorem
evaluates the embedded code at the failing input of the claim. -/
theorem C3_should_use_cache_none_is_true :
    should_use_cache none 0 = true :=
  rfl

/-- C4: for every cached record, `CLOSED` state together with a
`completeDate` more than 6 days in the past makes the cache usable; a
`CLOSED` record completed 7 days ago is usable; a `CLOSED` record completed
2 days ago is not; an `ACTIVE` record is never usable regardless of age. -/
theorem C4_cache_policy (r : CachedSprintRecord) (now : Int) :
    (r.state = .CLOSED → r.completeDate < now - 6 * seconds_per_day →
      should_use_cache (some r) now = true)
    ∧ should_use_cache (some ⟨.CLOSED, now - 7 * seconds_per_day⟩) now = true
    ∧ should_use_cache (some ⟨.CLOSED, now - 2 * seconds_per_day⟩) now = false
    ∧ (r.state = .ACTIVE → should_use_cache (some r) now = false) := by
  refine ⟨?_, ?_, ?_, ?_⟩
  · intro h1 h2
    simp [should_use_cache, h1, h2]
  · simp [should_use_cache, seconds_per_day]
  · simp [should_use_cache, seconds_per_day]
  · intro h
    simp [should_use_cache, h]

/-- Witness for C4 at a concrete record and time. -/
theorem C4_cache_policy_witness :
    should_use_cache (some ⟨.CLOSED, 0 - 7 * seconds_per_day⟩) 0 = true
    ∧ should_use_cache (some ⟨.ACTIVE, 0 - 100 * seconds_per_day⟩) 0 = false :=
  ⟨(C4_cache_policy ⟨.CLOSED, 0 - 7 * seconds_per_day⟩ 0).1 rfl
      (by norm_num [seconds_per_day]),
    (C4_cache_policy ⟨.ACTIVE, 0 - 100 * seconds_per_day⟩ 0).2.2.2 rfl⟩

/-- C7 counterexample: with an empty team sprint list, resolving a literal
sprint record (the `isinstance(sprint_id, dict)` branch) does not return
`None` — it returns the record unchanged, contradicting the claim that every
kind of reference resolves to `None` on an empty list. -/
theorem C7_counterexample :
    get_abridged_sprint_object_for_team [] (.sprintObject c7_sprint) = some c7_sprint
    ∧ some c7_sprint ≠ (none : Option AbridgedSprint) := by
  exact ⟨rfl, by simp⟩

/-- C7 amended: when the team's sprint list is empty, resolution returns
`None` for `Current`, `LastCompleted`, `BeforeLastCompleted` and `ById`;
`Literal` instead returns the given record unchanged (no lookup). -/
theorem C7_empty_list_resolution :
    get_abridged_sprint_object_for_team [] .current = none
    ∧ get_abridged_sprint_object_for_team [] .lastCompleted = none
    ∧ get_abridged_sprint_object_for_team [] .beforeLastCompleted = none
    ∧ (∀ i, get_abridged_sprint_object_for_team [] (.byId i) = none)
    ∧ (∀ s, get_abridged_sprint_object_for_team [] (.sprintObject s) = some s) := by
  refine ⟨?_, ?_, ?_, fun i => ?_, fun s => rfl⟩ <;>
    simp [get_abridged_sprint_object_for_team, sort_sprints_desc, current_scan,
      last_completed_scan, before_last_completed_scan, by_id_scan]

/-- C10: when building a detailed sprint record, an `ACTIVE` sprint gets
`actual_length = now - startDate` and is `overdue` exactly when that elapsed
duration exceeds 16 days; any other state gets `overdue = False` and
`actual_length = completeDate - startDate`. -/
theorem C10_actual_length_overdue (st : SprintState) (startDate completeDate now : Int) :
    (st = .ACTIVE →
      (detailed_sprint_actual_length_overdue st startDate completeDate now).1
          = now - startDate
      ∧ ((detailed_sprint_actual_length_overdue st startDate completeDate now).2 = true
          ↔ 16 * seconds_per_day < now - startDate))
    ∧ (st ≠ .ACTIVE →
      detailed_sprint_actual_length_overdue st startDate completeDate now
        = (completeDate - startDate, false)) := by
  constructor
  · intro h
    simp [detailed_sprint_actual_length_overdue, h]
  · intro h
    simp [detailed_sprint_actual_length_overdue, h]

/-- C2 counterexample: the team's list sorted descending is
`[c2_active, c2_closed]`, so the scan meets the overdue `ACTIVE` sprint
before any `CLOSED` sprint, yet resolving `LastCompleted` returns the
later-encountered `CLOSED` sprint (the overdue branch stores the sprint
without breaking, and the `CLOSED` branch then overwrites it). -/
theorem C2_counterexample :
    get_abridged_sprint_object_for_team [c2_active, c2_closed] .lastCompleted
        = some c2_closed
    ∧ some c2_closed ≠ some c2_active := by
  have hs : sort_sprints_desc [c2_active, c2_closed] = [c2_active, c2_closed] :=
    sort_sprints_desc_of_sorted (by decide)
  refine ⟨?_, by decide⟩
  simp only [get_abridged_sprint_object_for_team, hs]
  decide

/-- C2 amended: in the `LastCompleted` scan an overdue `ACTIVE` sprint is
only recorded as a candidate and the scan continues; whenever a `CLOSED`
sprint exists in the descending order, the first such `CLOSED` sprint is
returned (overriding any overdue `ACTIVE` sprint met earlier); the recorded
overdue `ACTIVE` sprint (the last one encountered) is returned only when no
`CLOSED` sprint exists. -/
theorem C2_last_completed_amended (l : List AbridgedSprint) :
    (∀ c, (sort_sprints_desc l).find? is_closed = some c →
      get_abridged_sprint_object_for_team l .lastCompleted = some c)
    ∧ ((sort_sprints_desc l).find? is_closed = none →
      get_abridged_sprint_object_for_team l .lastCompleted
        = ((sort_sprints_desc l).filter is_overdue_active).getLast?) := by
  constructor
  · intro c hc
    simp only [get_abridged_sprint_object_for_team]
    rw [last_completed_scan_eq, hc]
  · intro hc
    simp only [get_abridged_sprint_object_for_team]
    rw [last_completed_scan_eq, hc]
    cases ((sort_sprints_desc l).filter is_overdue_active).getLast? <;> rfl

/-- Witness for the amended C2 at the concrete two-sprint list. -/
theorem C2_last_completed_amended_witness :
    get_abridged_sprint_object_for_team [c2_active, c2_closed] .lastCompleted
      = some c2_closed :=
  (C2_last_completed_amended [c2_active, c2_closed]).1 c2_closed (by
    rw [sort_sprints_desc_of_sorted (by decide)]
    decide)

/-- C5: resolving `BeforeLastCompleted` returns `None` whenever the list has
fewer than two `CLOSED` sprints, and returns the second `CLOSED` sprint of
the descending order whenever at least two exist. -/
theorem C5_resolve_before_last (l : List AbridgedSprint) :
    ((l.filter is_closed).length < 2 →
      get_abridged_sprint_object_for_team l .beforeLastCompleted = none)
    ∧ (∀ a b rest2, (sort_sprints_desc l).filter is_closed = a :: b :: rest2 →
      get_abridged_sprint_object_for_team l .beforeLastCompleted = some b) := by
  constructor
  · intro h
    simp only [get_abridged_sprint_object_for_team]
    rw [before_last_scan_none]
    apply List.getElem?_eq_none
    have hp : ((sort_sprints_desc l).filter is_closed).length
        = (l.filter is_closed).length :=
      ((sort_sprints_desc_perm l).filter is_closed).length_eq
    omega
  · intro a b rest2 h
    simp only [get_abridged_sprint_object_for_team]
    rw [before_last_scan_none, h]
    simp

/-- Witness for C5 at the list with `CLOSED` sprints of sequence 5 and 3 and
a `FUTURE` sprint: the sequence-3 sprint is returned. -/
theorem C5_resolve_before_last_witness :
    get_abridged_sprint_object_for_team [c5_future, c5_seq5, c5_seq3]
        .beforeLastCompleted
      = some c5_seq3 :=
  (C5_resolve_before_last [c5_future, c5_seq5, c5_seq3]).2 c5_seq5 c5_seq3 [] (by
    rw [sort_sprints_desc_of_sorted (by decide)]
    decide)

/-- C6: resolving `Current` returns the first `ACTIVE` sprint of the
descending order (hence `None` when no `ACTIVE` sprint exists), and on every
non-empty list containing exactly one `ACTIVE` sprint it returns that
sprint. -/
theorem C6_resolve_current (l : List AbridgedSprint) :
    get_abridged_sprint_object_for_team l .current
        = (sort_sprints_desc l).find? is_active
    ∧ (∀ a, l ≠ [] → l.filter is_active = [a] →
        get_abridged_sprint_object_for_team l .current = some a) := by
  constructor
  · simp only [get_abridged_sprint_object_for_team]
    exact current_scan_eq_find? _
  · intro a hne hf
    have h1 : (sort_sprints_desc l).filter is_active = [a] := by
      have hp : ((sort_sprints_desc l).filter is_active).Perm [a] := by
        rw [← hf]
        exact (sort_sprints_desc_perm l).filter is_active
      exact List.perm_singleton.mp hp
    simp only [get_abridged_sprint_object_for_team]
    rw [current_scan_eq_find?, ← List.filter_head? is_active, h1]
    rfl

/-- Witness for C6 at a three-sprint list with exactly one `ACTIVE`. -/
theorem C6_resolve_current_witness :
    get_abridged_sprint_object_for_team c6_list .current
      = some ⟨41, "active", .ACTIVE, 2, false⟩ :=
  (C6_resolve_current c6_list).2 ⟨41, "active", .ACTIVE, 2, false⟩
    (by decide) (by decide)

/-- C8: validation failures happen before (and independently of) the
retrieval step `_fetch`: resolving a specific sprint id without a team, and
requesting history together with an explicitly supplied sprint id, both make
`fetch` return the validation error for every possible retrieval result
`fi`, so no external call can influence (or is needed for) the outcome. -/
theorem C8_validation_fail_fast :
    (∀ (args : FetchArgs) (i : Nat), args.team_id = none →
        args.sprint_id = some (.byId i) →
      ∀ (α : Type) (fu : Bool) (rd cd fi : Option α),
        fetch fu rd cd fi args
          = .error "You cannot request a specific sprint ID if you do not specify a team ID.")
    ∧ (∀ (args : FetchArgs) (sid : SprintIdArg), args.get_history = some true →
        args.sprint_id = some sid →
      ∀ (α : Type) (fu : Bool) (rd cd fi : Option α),
        ∃ msg, fetch fu rd cd fi args = .error msg) := by
  constructor
  · intro args i ht hs α fu rd cd fi
    simp [fetch, validate_input, team_truthy, ht, hs]
  · intro args sid hg hs α fu rd cd fi
    by_cases hc : team_truthy args.team_id = false
        ∧ ¬sid = SprintIdArg.lastCompleted ∧ ¬sid = SprintIdArg.current
    · refine ⟨"You cannot request a specific sprint ID if you do not specify a team ID.", ?_⟩
      simp [fetch, validate_input, hg, hs, hc]
    · refine ⟨"You specified that you want sprint history but also specified a specific sprint to retrieve.", ?_⟩
      simp [fetch, validate_input, hg, hs, hc]

/-- Witness for C8 at two concrete malformed argument records. -/
theorem C8_validation_fail_fast_witness :
    fetch false none none (some (0 : Nat)) ⟨none, some (.byId 5), none⟩
      = .error "You cannot request a specific sprint ID if you do not specify a team ID."
    ∧ ∃ msg,
      fetch false none none (some (0 : Nat)) ⟨some "hb", some .lastCompleted, some true⟩
        = .error msg :=
  ⟨C8_validation_fail_fast.1 ⟨none, some (.byId 5), none⟩ 5 rfl rfl Nat false
      none none (some 0),
    C8_validation_fail_fast.2 ⟨some "hb", some .lastCompleted, some true⟩
      .lastCompleted rfl rfl Nat false none none (some 0)⟩

theorem pysum_float_go :
    ∀ (qs : List ℚ) (a : ℚ),
      List.foldl py_add (PyNum.float a) (qs.map PyNum.float) = PyNum.float (a + qs.sum)
  | [], a => by simp
  | q :: qs, a => by
    simp only [List.map_cons, List.foldl_cons, py_add, pysum_float_go qs (a + q),
      List.sum_cons, PyNum.float.injEq]
    ring

theorem pysum_float (q : ℚ) (qs : List ℚ) :
    pysum ((q :: qs).map PyNum.float) = PyNum.float ((q :: qs).sum) := by
  simp only [pysum, List.map_cons, List.foldl_cons, py_add, pysum_float_go,
    List.sum_cons, PyNum.float.injEq]
  push_cast
  ring

theorem variance_of_float (q : ℚ) (qs : List ℚ) :
    variance_of ((q :: qs).map PyNum.float) true
      = PyNum.float
          ((((q :: qs).map
              (fun x => (x - (q :: qs).sum / (((q :: qs).length : ℚ))) ^ 2)).sum)
            / (((q :: qs).length : ℚ))) := by
  simp only [variance_of, List.length_map, List.map_map, pysum_float, py_div]
  rw [if_pos trivial]
  rw [show ((fun d => py_pow2 d)
        ∘ (fun x => py_sub x (PyNum.float ((q :: qs).sum / ((((q :: qs).length : ℤ) : ℚ)))))
        ∘ PyNum.float)
      = PyNum.float
        ∘ (fun x : ℚ => (x - (q :: qs).sum / ((((q :: qs).length : ℤ) : ℚ))) ^ 2)
      from funext fun x => rfl]
  rw [← List.map_map, List.map_cons
    (fun x : ℚ => (x - (q :: qs).sum / ((((q :: qs).length : ℤ) : ℚ))) ^ 2) q qs,
    pysum_float]
  push_cast
  rfl

/-- C9 counterexample: on the all-integer list `[0, 1]` the function with its
default computes mean `1/2 = 0` and variance `1/2 = 0` by Python 2 floor
division and returns `0`, while the population standard deviation of those
values is `1/2`; so the claim that the default always computes the
population standard deviation is false. -/
theorem C9_floor_division_counterexample :
    standard_deviation_default [PyNum.int 0, PyNum.int 1] = 0
    ∧ population_standard_deviation_spec [0, 1] = 1 / 2
    ∧ (0 : ℝ) ≠ 1 / 2 := by
  refine ⟨?_, ?_, by norm_num⟩
  · have hv : variance_of [PyNum.int 0, PyNum.int 1] true = PyNum.int 0 := by decide
    simp [standard_deviation_default, standard_deviation, hv, PyNum.toRat]
  · have h1 : ((([0, 1] : List ℚ).map
          (fun x => (x - ([0, 1] : List ℚ).sum / ((([0, 1] : List ℚ).length : ℚ))) ^ 2)).sum
        / ((([0, 1] : List ℚ).length : ℚ)) : ℚ) = 1 / 4 := by
      norm_num
    rw [population_standard_deviation_spec, h1,
      show ((1 / 4 : ℚ) : ℝ) = (1 / 2 : ℝ) ^ 2 from by norm_num]
    exact Real.sqrt_sq (by norm_num)

/-- C9 amended: `standard_deviation` is a total function of its numeric input
(the Python body is wrapped in an exception handler and raises nothing for
numeric lists); it returns `0` on the empty list and on every one-element
list; and with the default `population=True` it computes exactly the
population standard deviation on lists of float values, where Python 2 `/`
is true division (on all-integer lists floor division applies and the result
can differ). -/
theorem C9_standard_deviation_amended :
    (∀ population, standard_deviation [] population = 0)
    ∧ (∀ (x : PyNum) (population : Bool), standard_deviation [x] population = 0)
    ∧ (∀ qs : List ℚ,
        standard_deviation_default (qs.map PyNum.float)
          = population_standard_deviation_spec qs) := by
  refine ⟨fun p => by simp [standard_deviation], fun x p => ?_, fun qs => ?_⟩
  · cases x with
    | int n =>
      cases p <;>
        simp [standard_deviation, variance_of, pysum, py_add, py_sub, py_div,
          py_pow2, PyNum.toRat]
    | float y =>
      cases p <;>
        simp [standard_deviation, variance_of, pysum, py_add, py_sub, py_div,
          py_pow2, PyNum.toRat]
  · cases qs with
    | nil =>
      simp [standard_deviation_default, standard_deviation,
        population_standard_deviation_spec]
    | cons q qs =>
      rw [standard_deviation_default, standard_deviation,
        if_neg (by simp), variance_of_float, population_standard_deviation_spec]
      rfl

/-- Witness for C10 at a concrete `ACTIVE` sprint. -/
theorem C10_actual_length_overdue_witness :
    (detailed_sprint_actual_length_overdue .ACTIVE 0 5 10).1 = 10 - 0
    ∧ ((detailed_sprint_actual_length_overdue .ACTIVE 0 5 10).2 = true
        ↔ 16 * seconds_per_day < 10 - 0) :=
  (C10_actual_length_overdue .ACTIVE 0 5 10).1 rfl

/-! Helper lemmas for the aggregation invariant (claim C1). -/

theorem upd_entry_self (d : AggDict) (i : Nat) (e : SprintAgg) :
    upd_entry d i e i = some e := by
  simp [upd_entry]

theorem upd_entry_other (d : AggDict) (i : Nat) (e : SprintAgg) {j : Nat} (h : j ≠ i) :
    upd_entry d i e j = d j := by
  simp [upd_entry, h]

theorem upd_entry_isSome (d : AggDict) (i : Nat) (e : SprintAgg) :
    (upd_entry d i e i).isSome := by
  simp [upd_entry]

theorem read_point_upd_self (d : AggDict) (i : Nat) (e : SprintAgg) (k : PointKey) :
    read_point (upd_entry d i e) i k = e.pointAgg k := by
  simp [read_point, upd_entry]

theorem read_point_upd_other (d : AggDict) (i : Nat) (e : SprintAgg) {j : Nat}
    (h : j ≠ i) (k : PointKey) :
    read_point (upd_entry d i e) j k = read_point d j k := by
  simp [read_point, upd_entry, h]

theorem read_point_of_some {d : AggDict} {i : Nat} {e : SprintAgg}
    (heq : d i = some e) (k : PointKey) :
    read_point d i k = e.pointAgg k := by
  simp [read_point, heq]

theorem read_point_running_sum_upd_other (d : AggDict) (i : Nat) (e : SprintAgg)
    {j : Nat} (h : j ≠ i) (k : PointKey) :
    read_point_running_sum (upd_entry d i e) j k = read_point_running_sum d j k := by
  rw [read_point_running_sum, read_point_upd_other _ _ _ h, ← read_point_running_sum]

theorem set_point_get_same (e : SprintAgg) (k : PointKey) (m : MetricAgg) :
    (set_point e k m).pointAgg k = some m := by
  simp [set_point]

theorem set_point_get_other (e : SprintAgg) (key : PointKey) (m : MetricAgg)
    {k : PointKey} (h : k ≠ key) :
    (set_point e key m).pointAgg k = e.pointAgg k := by
  simp [set_point, h]

theorem set_point_issueAgg (e : SprintAgg) (k : PointKey) (m : MetricAgg) :
    (set_point e k m).issueAgg = e.issueAgg := rfl

theorem set_issue_pointAgg (e : SprintAgg) (k : IssueKey) (m : MetricAgg) :
    (set_issue e k m).pointAgg = e.pointAgg := rfl

theorem ensure_entry_other (d : AggDict) (one : SprintHistoryEntry) {j : Nat}
    (h : j ≠ one.sprint.id) : ensure_entry d one j = d j := by
  rw [ensure_entry]
  split
  · rfl
  · exact upd_entry_other _ _ _ h

theorem ensure_entry_isSome (d : AggDict) (one : SprintHistoryEntry) :
    (ensure_entry d one one.sprint.id).isSome := by
  rw [ensure_entry]
  split
  next hs => exact hs
  next => exact upd_entry_isSome _ _ _

theorem ensure_entry_rps_other (d : AggDict) (one : SprintHistoryEntry) {j : Nat}
    (h : j ≠ one.sprint.id) (k : PointKey) :
    read_point_running_sum (ensure_entry d one) j k = read_point_running_sum d j k := by
  rw [read_point_running_sum, read_point, ensure_entry_other _ _ h, ← read_point,
    ← read_point_running_sum]

theorem point_key_loop_frame (last id idx : Nat) (one : SprintHistoryEntry) :
    ∀ (keys : List PointKey) (d : AggDict) {j : Nat}, j ≠ id →
      point_key_loop keys d last id idx one j = d j
  | [], _, _, _ => rfl
  | key :: rest, d, j, h => by
    rw [point_key_loop]
    split
    · rw [point_key_loop_frame last id idx one rest _ h, upd_entry_other _ _ _ h]
    · exact point_key_loop_frame last id idx one rest d h

theorem issue_key_loop_frame (last id idx : Nat) (one : SprintHistoryEntry) :
    ∀ (keys : List IssueKey) (d : AggDict) {j : Nat}, j ≠ id →
      issue_key_loop keys d last id idx one j = d j
  | [], _, _, _ => rfl
  | key :: rest, d, j, h => by
    rw [issue_key_loop]
    split
    · rw [issue_key_loop_frame last id idx one rest _ h, upd_entry_other _ _ _ h]
    · exact issue_key_loop_frame last id idx one rest d h

theorem issue_key_loop_read_point (last id idx : Nat) (one : SprintHistoryEntry) :
    ∀ (keys : List IssueKey) (d : AggDict) (j : Nat) (k : PointKey),
      read_point (issue_key_loop keys d last id idx one) j k = read_point d j k
  | [], _, _, _ => rfl
  | key :: rest, d, j, k => by
    rw [issue_key_loop]
    split
    next e heq =>
      rw [issue_key_loop_read_point last id idx one rest _ j k]
      by_cases hj : j = id
      · subst hj
        rw [read_point_upd_self, set_issue_pointAgg, read_point_of_some heq]
      · rw [read_point_upd_other _ _ _ hj]
    next heq => exact issue_key_loop_read_point last id idx one rest d j k

theorem point_key_loop_not_mem (last id idx : Nat) (one : SprintHistoryEntry) :
    ∀ (keys : List PointKey) (d : AggDict) {k : PointKey}, k ∉ keys →
      read_point (point_key_loop keys d last id idx one) id k = read_point d id k
  | [], _, _, _ => rfl
  | key :: rest, d, k, h => by
    have hk : k ≠ key := fun he => h (he ▸ List.mem_cons_self key rest)
    have hr : k ∉ rest := fun hm => h (List.mem_cons_of_mem key hm)
    rw [point_key_loop]
    split
    next e heq =>
      rw [point_key_loop_not_mem last id idx one rest _ hr, read_point_upd_self,
        set_point_get_other _ _ _ hk, read_point_of_some heq]
    next heq => exact point_key_loop_not_mem last id idx one rest d hr

theorem point_key_loop_read (last id idx : Nat) (one : SprintHistoryEntry)
    (hlast : idx ≠ 0 → id ≠ last) :
    ∀ (keys : List PointKey) (d : AggDict), keys.Nodup → (d id).isSome →
      ∀ {k : PointKey}, k ∈ keys →
        read_point (point_key_loop keys d last id idx one) id k
          = some { actual := text_to_number (one.contents.points k),
                   running_avg :=
                     if idx = 0 then text_to_number (one.contents.points k)
                     else (read_point_running_sum d last k
                        + text_to_number (one.contents.points k)) / ((idx : ℚ) + 1),
                   running_sum :=
                     if idx = 0 then text_to_number (one.contents.points k)
                     else read_point_running_sum d last k
                        + text_to_number (one.contents.points k) }
  | [], _, _, _, k, hk => absurd hk (List.not_mem_nil k)
  | key :: rest, d, hnd, hsome, k, hk => by
    rw [point_key_loop]
    split
    next e heq =>
      rcases List.mem_cons.mp hk with he | hmem
      · subst he
        rw [point_key_loop_not_mem last id idx one rest _ (List.nodup_cons.mp hnd).1,
          read_point_upd_self, set_point_get_same]
        by_cases h0 : idx = 0 <;> simp [h0]
      · rw [point_key_loop_read last id idx one hlast rest _
          (List.nodup_cons.mp hnd).2 (upd_entry_isSome _ _ _) hmem]
        by_cases h0 : idx = 0
        · simp [h0]
        · have hne2 : last ≠ id := fun h => (hlast h0) h.symm
          rw [read_point_running_sum_upd_other _ _ _ hne2]
    next heq =>
      rw [heq] at hsome
      simp at hsome

theorem read_point_ext {d d2 : AggDict} {i : Nat} (h : d i = d2 i) (k : PointKey) :
    read_point d i k = read_point d2 i k := by
  unfold read_point
  rw [h]

theorem mem_point_keys (k : PointKey) : k ∈ point_keys := by
  cases k <;> simp [point_keys]

theorem point_keys_nodup : point_keys.Nodup := by
  decide

theorem actual_at_cons (e : SprintHistoryEntry) (L : List SprintHistoryEntry)
    (k : PointKey) (j : Nat) :
    actual_at (e :: L) k (j + 1) = actual_at L k j := by
  simp [actual_at]

theorem running_sum_spec_cons (e : SprintHistoryEntry) (L : List SprintHistoryEntry)
    (k : PointKey) :
    ∀ j, running_sum_spec (e :: L) k (j + 1)
      = text_to_number (e.contents.points k) + running_sum_spec L k j
  | 0 => by
    simp [running_sum_spec, actual_at_cons, actual_at]
  | j + 1 => by
    rw [running_sum_spec, running_sum_spec_cons e L k j, actual_at_cons,
      running_sum_spec]
    ring

theorem aggregate_go_points :
    ∀ (L : List SprintHistoryEntry) (idx prevId : Nat) (ao : List Nat) (d : AggDict)
      (SP : PointKey → ℚ),
      (L.map fun e => e.sprint.id).Nodup →
      (idx ≠ 0 → ∀ e ∈ L, e.sprint.id ≠ prevId) →
      (idx ≠ 0 → ∀ k, read_point_running_sum d prevId k = SP k) →
      (idx = 0 → ∀ k, SP k = 0) →
      (∀ j, (∀ e ∈ L, e.sprint.id ≠ j) →
        (aggregate_go L idx prevId ⟨ao, d⟩).entries j = d j)
      ∧ (∀ (j : Nat) (e : SprintHistoryEntry), L[j]? = some e → ∀ k,
          read_point (aggregate_go L idx prevId ⟨ao, d⟩).entries e.sprint.id k
            = some { actual := text_to_number (e.contents.points k),
                     running_avg :=
                       (SP k + running_sum_spec L k j) / (((idx + j : Nat) : ℚ) + 1),
                     running_sum := SP k + running_sum_spec L k j })
  | [], idx, prevId, ao, d, SP, _, _, _, _ => by
    constructor
    · intro j _
      rfl
    · intro j e h
      simp at h
  | one :: rest, idx, prevId, ao, d, SP, hnd, hfresh, hprev, hzero => by
    have hid : one.sprint.id ∉ rest.map fun e => e.sprint.id := (List.nodup_cons.mp hnd).1
    have hnd2 : (rest.map fun e => e.sprint.id).Nodup := (List.nodup_cons.mp hnd).2
    have hstep : aggregate_go (one :: rest) idx prevId ⟨ao, d⟩
        = aggregate_go rest (idx + 1) one.sprint.id
            ⟨ao ++ [one.sprint.id],
              issue_key_loop issue_keys
                (point_key_loop point_keys (ensure_entry d one) prevId one.sprint.id idx one)
                prevId one.sprint.id idx one⟩ := rfl
    have hlast : idx ≠ 0 → one.sprint.id ≠ prevId :=
      fun h0 => hfresh h0 one (List.mem_cons_self one rest)
    have hd2point : ∀ k,
        read_point
          (issue_key_loop issue_keys
            (point_key_loop point_keys (ensure_entry d one) prevId one.sprint.id idx one)
            prevId one.sprint.id idx one) one.sprint.id k
        = some { actual := text_to_number (one.contents.points k),
                 running_avg :=
                   if idx = 0 then text_to_number (one.contents.points k)
                   else (read_point_running_sum (ensure_entry d one) prevId k
                      + text_to_number (one.contents.points k)) / ((idx : ℚ) + 1),
                 running_sum :=
                   if idx = 0 then text_to_number (one.contents.points k)
                   else read_point_running_sum (ensure_entry d one) prevId k
                      + text_to_number (one.contents.points k) } := by
      intro k
      rw [issue_key_loop_read_point,
        point_key_loop_read prevId one.sprint.id idx one hlast point_keys _
          point_keys_nodup (ensure_entry_isSome d one) (mem_point_keys k)]
    have hrs2 : ∀ k,
        read_point_running_sum
          (issue_key_loop issue_keys
            (point_key_loop point_keys (ensure_entry d one) prevId one.sprint.id idx one)
            prevId one.sprint.id idx one) one.sprint.id k
        = SP k + text_to_number (one.contents.points k) := by
      intro k
      rw [read_point_running_sum, hd2point k]
      by_cases h0 : idx = 0
      · simp [h0, hzero h0 k]
      · have hne : prevId ≠ one.sprint.id := fun h => (hlast h0) h.symm
        simp only [h0, if_false]
        rw [ensure_entry_rps_other d one hne, hprev h0 k]
    have IH := aggregate_go_points rest (idx + 1) one.sprint.id
      (ao ++ [one.sprint.id])
      (issue_key_loop issue_keys
        (point_key_loop point_keys (ensure_entry d one) prevId one.sprint.id idx one)
        prevId one.sprint.id idx one)
      (fun k => SP k + text_to_number (one.contents.points k))
      hnd2
      (fun _ e he hc => hid (hc ▸ List.mem_map_of_mem (fun e2 => e2.sprint.id) he))
      (fun _ k => hrs2 k)
      (fun h => absurd h (Nat.succ_ne_zero idx))
    constructor
    · intro j hj
      rw [hstep, IH.1 j (fun e he => hj e (List.mem_cons_of_mem one he))]
      have hjid : j ≠ one.sprint.id := fun hc => hj one (List.mem_cons_self one rest) hc.symm
      rw [issue_key_loop_frame _ _ _ _ _ _ hjid, point_key_loop_frame _ _ _ _ _ _ hjid,
        ensure_entry_other _ _ hjid]
    · intro j e hje k
      cases j with
      | zero =>
        have he : one = e := by simpa using hje
        subst he
        have hfr : ∀ e2 ∈ rest, e2.sprint.id ≠ one.sprint.id :=
          fun e2 he2 hc => hid (hc ▸ List.mem_map_of_mem (fun e3 => e3.sprint.id) he2)
        rw [hstep, read_point_ext (IH.1 one.sprint.id hfr) k, hd2point k]
        have hrss0 : running_sum_spec (one :: rest) k 0
            = text_to_number (one.contents.points k) := by
          simp [running_sum_spec, actual_at]
        rw [hrss0]
        by_cases h0 : idx = 0
        · simp [h0, hzero h0 k]
        · have hne : prevId ≠ one.sprint.id := fun h => (hlast h0) h.symm
          simp only [h0, if_false, Nat.add_zero]
          rw [ensure_entry_rps_other d one hne, hprev h0 k]
      | succ j =>
        have hje2 : rest[j]? = some e := by simpa using hje
        rw [hstep, IH.2 j e hje2 k, running_sum_spec_cons,
          show idx + 1 + j = idx + (j + 1) from by omega]
        simp only [Option.some.injEq, MetricAgg.mk.injEq, true_and]
        exact ⟨by ring, by ring⟩

theorem aggregate_history_points_general (sprint_data : List SprintHistoryEntry)
    (hnd : (sprint_data.reverse.map fun e => e.sprint.id).Nodup)
    (k : PointKey) (i : Nat) (e : SprintHistoryEntry)
    (hie : sprint_data.reverse[i]? = some e) :
    read_point (aggregate_sprint_history_data sprint_data).entries e.sprint.id k
      = some { actual := actual_at sprint_data.reverse k i,
               running_avg :=
                 running_sum_spec sprint_data.reverse k i / (((i : Nat) : ℚ) + 1),
               running_sum := running_sum_spec sprint_data.reverse k i } := by
  have hmain := aggregate_go_points sprint_data.reverse 0 0 [] (fun _ => none)
    (fun _ => 0) hnd (fun h => absurd rfl h) (fun h => absurd rfl h) (fun _ _ => rfl)
  have h2 := hmain.2 i e hie k
  have ha : actual_at sprint_data.reverse k i = text_to_number (e.contents.points k) := by
    simp [actual_at, hie]
  rw [show aggregate_sprint_history_data sprint_data
      = aggregate_go sprint_data.reverse 0 0 ⟨[], fun _ => none⟩ from rfl, h2, ha]
  simp

/-- C1: for every list of sprint records supplied in descending chronological
order (with distinct sprint ids), the historical aggregator — which reverses
the list to ascending order — stores, for each point metric and ascending
position `i`, `actual(i)` = the raw value with textual `null` read as 0,
`running_sum(i)` following the recurrence `running_sum(0) = actual(0)`,
`running_sum(i) = running_sum(i-1) + actual(i)`, and
`running_avg(i) = running_sum(i) / (i+1)`; in particular, for
`completedIssuesEstimateSum` values 10, 20, 30 in ascending order the running
sums are 10, 30, 60 and the running averages are 10, 15, 20. -/
theorem C1_aggregate_history (sprint_data : List SprintHistoryEntry) :
    ((sprint_data.reverse.map fun e => e.sprint.id).Nodup →
      ∀ (k : PointKey) (i : Nat) (e : SprintHistoryEntry),
        sprint_data.reverse[i]? = some e →
        read_point (aggregate_sprint_history_data sprint_data).entries e.sprint.id k
          = some { actual := actual_at sprint_data.reverse k i,
                   running_avg :=
                     running_sum_spec sprint_data.reverse k i / (((i : Nat) : ℚ) + 1),
                   running_sum := running_sum_spec sprint_data.reverse k i })
    ∧ (read_point (aggregate_sprint_history_data c1_example).entries 1
          .completedIssuesEstimateSum
        = some { actual := 10, running_avg := 10, running_sum := 10 }
      ∧ read_point (aggregate_sprint_history_data c1_example).entries 2
          .completedIssuesEstimateSum
        = some { actual := 20, running_avg := 15, running_sum := 30 }
      ∧ read_point (aggregate_sprint_history_data c1_example).entries 3
          .completedIssuesEstimateSum
        = some { actual := 30, running_avg := 20, running_sum := 60 }
      ∧ (aggregate_sprint_history_data c1_example).asc_order = [1, 2, 3]) := by
  constructor
  · exact fun hnd k i e hie => aggregate_history_points_general sprint_data hnd k i e hie
  · refine ⟨?_, ?_, ?_, rfl⟩
    · exact (aggregate_history_points_general c1_example (by decide)
        .completedIssuesEstimateSum 0 (c1_entry 1 10) rfl).trans (by
          norm_num [show running_sum_spec c1_example.reverse
              .completedIssuesEstimateSum 0 = 10 from rfl,
            show actual_at c1_example.reverse .completedIssuesEstimateSum 0 = 10 from rfl])
    · exact (aggregate_history_points_general c1_example (by decide)
        .completedIssuesEstimateSum 1 (c1_entry 2 20) rfl).trans (by
          norm_num [show running_sum_spec c1_example.reverse
              .completedIssuesEstimateSum 1 = 10 + 20 from rfl,
            show actual_at c1_example.reverse .completedIssuesEstimateSum 1 = 20 from rfl])
    · exact (aggregate_history_points_general c1_example (by decide)
        .completedIssuesEstimateSum 2 (c1_entry 3 30) rfl).trans (by
          norm_num [show running_sum_spec c1_example.reverse
              .completedIssuesEstimateSum 2 = 10 + 20 + 30 from rfl,
            show actual_at c1_example.reverse .completedIssuesEstimateSum 2 = 30 from rfl])

/-- Witness for C1: the general statement applied at the concrete descending
example, middle ascending position. -/
theorem C1_aggregate_history_witness :
    read_point (aggregate_sprint_history_data c1_example).entries
        (c1_entry 2 20).sprint.id .completedIssuesEstimateSum
      = some { actual := actual_at c1_example.reverse .completedIssuesEstimateSum 1,
               running_avg :=
                 running_sum_spec c1_example.reverse .completedIssuesEstimateSum 1
                   / (((1 : Nat) : ℚ) + 1),
               running_sum :=
                 running_sum_spec c1_example.reverse .completedIssuesEstimateSum 1 } :=
  (C1_aggregate_history c1_example).1 (by decide) .completedIssuesEstimateSum 1
    (c1_entry 2 20) (by rfl)

end Augur
